import Mathlib

/-!
Verification of the plgo module writer (`modulewriter.go`).

The Go source is shallowly embedded: each emission function of the
`ModuleWriter` becomes a pure Lean function from its explicit inputs
(parsed package data, external-collaborator results such as the template
text, the `pg_config` output, formatter results, filesystem outcomes) to
the text it writes or the error it returns.  Strings are Lean `String`s;
Go's byte-indexed slicing and first-occurrence replacement are modelled
on the underlying character list.
-/

set_option maxRecDepth 16384

namespace Plgo

/-- Modelled from the spec: the Code Writer collaborator (its
implementations live outside the excerpt).  Per function descriptor it
produces a forward-declaration fragment (`FuncDec`), a full
wrapper-implementation fragment (`Code`), and, given the module name, a
registration statement (`SQL`). -/
structure CodeWriter where
  FuncDec : String
  Code : String
  SQL : String → String

/-- One parsed source file of the user package: its file name and the
text of its leading documentation comment (`File.Doc.Text()`). -/
structure GoFile where
  name : String
  doc : String
deriving DecidableEq, Repr

/-- A parsed package: its files, listed in the (arbitrary) order in which
Go iterates the `map[string]*ast.File` of `ast.Package.Files`. -/
structure GoPackage where
  files : List GoFile
deriving DecidableEq, Repr

/-- The `ModuleWriter` run context (`modulewriter.go` lines 26-32), minus
the Go-runtime-only fields `fset` and `packageAst`. -/
structure ModuleWriter where
  PackageName : String
  Doc : String
  functions : List CodeWriter

/-- `packageDoc += packageFile.Doc.Text() + "\n"` over the package's
files, in iteration order (`NewModuleWriter`, lines 56-59). -/
def aggregateDoc (files : List GoFile) : String :=
  files.foldl (fun acc f => acc ++ f.doc ++ "\n") ""

/-- Unix semantics of Go's `filepath.Base`. -/
def goFilepathBase (path : String) : String :=
  if path = "" then "."
  else
    let cs := path.data
    let stripped := (cs.reverse.dropWhile (fun c => c = '/')).reverse
    if stripped = [] then "/"
    else String.mk ((stripped.reverse.takeWhile (fun c => c ≠ '/')).reverse)

/-- Whether `pat` occurs as a contiguous subsequence of `s`. -/
def containsSeq : List Char → List Char → Bool
  | [], pat => pat.isEmpty
  | c :: rest, pat => pat.isPrefixOf (c :: rest) || containsSeq rest pat

/-- Replace the first occurrence of `pat` in `s` by `rep`: the semantics
of Go's `strings.Replace(s, pat, rep, 1)`. -/
def replaceFirst : List Char → List Char → List Char → List Char
  | [], pat, rep => if pat.isEmpty then rep else []
  | c :: rest, pat, rep =>
    if pat.isPrefixOf (c :: rest) then rep ++ (c :: rest).drop pat.length
    else c :: replaceFirst rest pat rep

/-- `strings.Replace` with count 1, lifted to `String`. -/
def goStringsReplace1 (s pat rep : String) : String :=
  String.mk (replaceFirst s.data pat.data rep.data)

/-- Substring test on `String`. -/
def containsStr (s pat : String) : Bool :=
  containsSeq s.data pat.data

/-- Concatenation of a list of strings, in order. -/
def strConcat : List String → String
  | [] => ""
  | s :: rest => s ++ strConcat rest

/-- External results `NewModuleWriter` consumes: the outcome of
`parser.ParseDir` (a map from package identifier to package, rendered as
an association list in iteration order), the outcome of the `FuncVisitor`
walk (the visitor lives outside the excerpt), and the outcome of
`filepath.Abs`. -/
structure AnalyzerEnv where
  parsed : Except String (List (String × GoPackage))
  visitorResult : Except String (List CodeWriter)
  absPath : Except String String

/-- `NewModuleWriter` (`modulewriter.go` lines 35-72): check the parse
result, reject more than one package, look up the `main` package,
aggregate the per-file doc comments, run the function visitor, resolve
the absolute path and take its base name as the module name. -/
def NewModuleWriter (packagePath : String) (env : AnalyzerEnv) :
    Except String ModuleWriter :=
  match env.parsed with
  | .error e => .error ("Cannot parse package: " ++ e)
  | .ok pkgs =>
    if 1 < pkgs.length then
      .error ("More than one package in " ++ packagePath)
    else
      match pkgs.lookup "main" with
      | none => .error ("No package main in " ++ packagePath)
      | some pkg =>
        match env.visitorResult with
        | .error e => .error e
        | .ok fns =>
          match env.absPath with
          | .error e => .error e
          | .ok abs =>
            .ok { PackageName := goFilepathBase abs
                  Doc := aggregateDoc pkg.files
                  functions := fns }

/-- One requirement line of a parsed `go.mod` (`modfile.Require`). -/
structure ModRequire where
  path : String
  version : String
deriving DecidableEq, Repr

/-- Outcome of `ioutil.ReadFile("go.mod")`: the file is missing, the read
fails otherwise, or it yields content. -/
inductive GoModRead where
  | missing
  | readErr (msg : String)
  | content (text : String)
deriving DecidableEq, Repr

/-- External results `versionInfo` consumes: the `go.mod` read outcome
and the outcome of `modfile.Parse` on its content. -/
structure GoModEnv where
  readResult : GoModRead
  parsed : Except String (List ModRequire)

/-- `versionInfo` (`modulewriter.go` lines 111-128): read `go.mod`
(missing file is a dedicated error), parse it, and return the version of
the first requirement whose path equals `mod`. -/
def versionInfo (env : GoModEnv) (mod : String) : Except String String :=
  match env.readResult with
  | .missing => .error "go.mod is missing. Please run go mod init"
  | .readErr e => .error e
  | .content _ =>
    match env.parsed with
    | .error e => .error e
    | .ok reqs =>
      match reqs.find? (fun r => r.path == mod) with
      | some r => .ok r.version
      | none => .error ("Cannot find " ++ mod ++ " in go.mod")

/-- Modelled from the spec: `getcorrectpath` (outside the excerpt)
"corrects 8.3 filenames on windows"; on other hosts it is the identity on
the discovered include path. -/
def getcorrectpath (p : String) : String := p

/-- Modelled from the spec: `addOtherIncludesAndLDFLAGS` (outside the
excerpt) applies "mingw windows workarounds"; on other hosts it leaves
the glue source unchanged. -/
def addOtherIncludesAndLDFLAGS (src _incDir : String) : String := src

/-- External results `writeplgo` consumes: the template text from
`readPlGoSource`, the `pg_config --includedir-server` output, and the
outcome of the final `ioutil.WriteFile` (`none` = success). -/
structure PlgoEnv where
  readPlGoSource : Except String String
  pgConfigIncludeDir : Except String String
  writeFile : Option String

/-- Outcome of `writeplgo`: a runtime fault (the `[12:]` slice out of
range), an error return, or success carrying the glue text written. -/
inductive WritePlgoResult where
  | panic
  | err (msg : String)
  | ok (content : String)
deriving DecidableEq, Repr

/-- The declaration blob: `funcdec += f.FuncDec()` over the functions in
order (`writeplgo`, lines 193-196). -/
def funcdecBlob (fns : List CodeWriter) : String :=
  fns.foldl (fun acc f => acc ++ f.FuncDec) ""

/-- The glue text built from a successfully read template: prepend
`package main` to the template minus its first 12 bytes, substitute the
include-path placeholder, apply the host workarounds, and splice the
declaration blob over the `//{funcdec}` marker (lines 182-197). -/
def writeplgoGlueSource (template incDir : String) (fns : List CodeWriter) : String :=
  let s1 : String := "package main\n\n" ++ String.mk (template.data.drop 12)
  let s2 := goStringsReplace1 s1 "/usr/include/postgresql/server" (getcorrectpath incDir)
  let s3 := addOtherIncludesAndLDFLAGS s2 (getcorrectpath incDir)
  goStringsReplace1 s3 "//{funcdec}" (funcdecBlob fns)

/-- `writeplgo` (`modulewriter.go` lines 177-203).  The Go expression
`plgoSource[12:]` panics when the template is shorter than 12 bytes; that
fault is modelled as the `panic` outcome. -/
def writeplgo (env : PlgoEnv) (fns : List CodeWriter) : WritePlgoResult :=
  match env.readPlGoSource with
  | .error e => .err e
  | .ok template =>
    if template.length < 12 then .panic
    else
      match env.pgConfigIncludeDir with
      | .error e => .err ("Cannot run pg_config: " ++ e)
      | .ok incDir =>
        match env.writeFile with
        | some e => .err ("Cannot write file tempdir: " ++ e)
        | none => .ok (writeplgoGlueSource template incDir fns)

/-- The fixed cgo boilerplate `writeExportedMethods` writes before the
wrapper fragments (lines 207-216). -/
def methodsHeader : String :=
  "package main\n\n/*\n#include \"postgres.h\"\n#include \"utils/elog.h\"\n#include \"fmgr.h\"\nextern void elog_error(char* string);\n*/\nimport \"C\"\n"

/-- The buffer assembled by `writeExportedMethods` before formatting:
the header followed by `f.Code(buf)` for each function in order
(lines 206-222). -/
def writeExportedMethodsBuf (fns : List CodeWriter) : String :=
  fns.foldl (fun acc f => acc ++ f.Code) methodsHeader

/-- `writeExportedMethods` (lines 205-233): assemble the buffer, run it
through `format.Source` (external, passed as `fmt`), and write the result
(`wr` is the `ioutil.WriteFile` outcome, `none` = success).  A formatting
error is returned as-is. -/
def writeExportedMethods (fmt : String → Except String String)
    (wr : Option String) (fns : List CodeWriter) : Except String String :=
  match fmt (writeExportedMethodsBuf fns) with
  | .error e => .error e
  | .ok code =>
    match wr with
    | some e => .error ("Cannot write file tempdir: " ++ e)
    | none => .ok code

/-- A file written into the temporary build directory. -/
structure FileWrite where
  name : String
  content : String
deriving DecidableEq, Repr

/-- Outcome of a run that may also fault at runtime. -/
inductive RunResult (α : Type) where
  | panic
  | err (msg : String)
  | ok (val : α)
deriving DecidableEq, Repr

/-- External results `WriteModule` consumes: the `buildPath` outcome, the
outcome of `writeUserPackage` (whose AST sanitising and pretty-printing
are external to the excerpt; on success it carries the `package.go`
text), the `writeplgo` environment, the `format.Source` function and the
`methods.go` write outcome. -/
structure WriteModuleEnv where
  buildPath : Except String String
  userPackage : Except String String
  plgoEnv : PlgoEnv
  fmtSource : String → Except String String
  methodsWrite : Option String

/-- `WriteModule` (`modulewriter.go` lines 75-93): obtain the build
directory, then run `writeUserPackage`, `writeplgo` and
`writeExportedMethods` in that order, returning the first error.  The
second component records which of the three write steps were executed,
in execution order; the first carries the files written on success. -/
def WriteModule (env : WriteModuleEnv) (fns : List CodeWriter) :
    RunResult (List FileWrite) × List String :=
  match env.buildPath with
  | .error e => (.err ("Cannot get tempdir: " ++ e), [])
  | .ok _ =>
    match env.userPackage with
    | .error e => (.err e, ["writeUserPackage"])
    | .ok pkgSrc =>
      match writeplgo env.plgoEnv fns with
      | .panic => (.panic, ["writeUserPackage", "writeplgo"])
      | .err e => (.err e, ["writeUserPackage", "writeplgo"])
      | .ok glue =>
        match writeExportedMethods env.fmtSource env.methodsWrite fns with
        | .error e =>
          (.err e, ["writeUserPackage", "writeplgo", "writeExportedMethods"])
        | .ok code =>
          (.ok [{ name := "package.go", content := pkgSrc },
                { name := "pl.go", content := glue },
                { name := "methods.go", content := code }],
           ["writeUserPackage", "writeplgo", "writeExportedMethods"])

/-- The header `WriteSQL` writes before the registration statements
(lines 243-245). -/
def sqlHeader (name : String) : String :=
  "-- complain if script is sourced in psql, rather than via CREATE EXTENSION\n\\echo Use \"CREATE EXTENSION " ++ name ++ "\" to load this file. \\quit\n"

/-- The content of the registration script written by `WriteSQL`
(lines 236-250): the header followed by `f.SQL(mw.PackageName, file)` for
each function in order. -/
def WriteSQLContent (mw : ModuleWriter) : String :=
  mw.functions.foldl (fun acc f => acc ++ f.SQL mw.PackageName) (sqlHeader mw.PackageName)

/-- The content of the `.control` file written by `WriteControl`
(lines 253-260). -/
def WriteControlContent (mw : ModuleWriter) : String :=
  "# " ++ mw.PackageName ++ " extension\ncomment = \x27" ++ mw.PackageName ++ " extension\x27\ndefault_version = \x270.1\x27\nrelocatable = true"

/-- The content of the `Makefile` written by `WriteMakefile`
(lines 263-276). -/
def WriteMakefileContent (mw : ModuleWriter) : String :=
  "EXTENSION = " ++ mw.PackageName ++ "\nDATA = " ++ mw.PackageName ++ "--0.1.sql  # script files to install\n# REGRESS = " ++ mw.PackageName ++ "_test     # our test script file (without extension)\nMODULES = " ++ mw.PackageName ++ "          # our c module file to build\noverride with_llvm = no\n\n# postgres build stuff\nPG_CONFIG = pg_config\nPGXS := $(shell $(PG_CONFIG) --pgxs)\ninclude $(PGXS)"

/-! ## Helper lemmas -/

lemma string_data_append (a b : String) : (a ++ b).data = a.data ++ b.data := rfl

lemma string_mk_append (a b : List Char) :
    String.mk (a ++ b) = String.mk a ++ String.mk b := rfl

lemma string_append_assoc (a b c : String) : a ++ b ++ c = a ++ (b ++ c) :=
  congrArg String.mk (List.append_assoc a.data b.data c.data)

lemma isPrefixOf_append (p : List Char) :
    ∀ s : List Char, p.isPrefixOf s = true → s = p ++ s.drop p.length := by
  induction p with
  | nil => intro s _; simp
  | cons a p ih =>
    intro s hp
    cases s with
    | nil => simp [List.isPrefixOf] at hp
    | cons b s =>
      simp only [List.isPrefixOf, Bool.and_eq_true, beq_iff_eq] at hp
      obtain ⟨hab, hps⟩ := hp
      subst hab
      simpa using ih s hps

lemma replaceFirst_of_not_contains (pat rep : List Char) :
    ∀ s : List Char, containsSeq s pat = false → replaceFirst s pat rep = s := by
  intro s
  induction s with
  | nil =>
    intro h
    simp only [containsSeq] at h
    simp [replaceFirst, h]
  | cons c rest ih =>
    intro h
    simp only [containsSeq, Bool.or_eq_false_iff] at h
    simp [replaceFirst, h.1, ih h.2]

lemma replaceFirst_of_contains (pat rep : List Char) :
    ∀ s : List Char, containsSeq s pat = true →
      ∃ a b, s = a ++ pat ++ b ∧ replaceFirst s pat rep = a ++ rep ++ b := by
  intro s
  induction s with
  | nil =>
    intro h
    simp only [containsSeq] at h
    have hpat : pat = [] := by
      cases pat with
      | nil => rfl
      | cons x xs => simp [List.isEmpty] at h
    refine ⟨[], [], by simp [hpat], by simp [replaceFirst, hpat, List.isEmpty]⟩
  | cons c rest ih =>
    intro h
    by_cases hp : pat.isPrefixOf (c :: rest) = true
    · refine ⟨[], (c :: rest).drop pat.length, ?_, ?_⟩
      · simpa using isPrefixOf_append pat (c :: rest) hp
      · simp [replaceFirst, hp]
    · have h2 : containsSeq rest pat = true := by
        simp only [containsSeq, Bool.or_eq_true] at h
        rcases h with h | h
        · exact absurd h hp
        · exact h
      obtain ⟨a, b, hs, hr⟩ := ih h2
      refine ⟨c :: a, b, by simp [hs], ?_⟩
      simp only [replaceFirst]
      rw [if_neg (by simpa using hp), hr]
      simp

lemma foldl_append_strConcat {α : Type} (g : α → String) (l : List α) :
    ∀ init : String,
      l.foldl (fun acc x => acc ++ g x) init = init ++ strConcat (l.map g) := by
  induction l with
  | nil => intro init; simp [strConcat, String.append_empty]
  | cons x xs ih =>
    intro init
    simp only [List.foldl, List.map, strConcat]
    rw [ih (init ++ g x), string_append_assoc]

lemma funcdecBlob_eq_strConcat (fns : List CodeWriter) :
    funcdecBlob fns = strConcat (fns.map CodeWriter.FuncDec) := by
  unfold funcdecBlob
  rw [foldl_append_strConcat, String.empty_append]

lemma writeExportedMethodsBuf_eq (fns : List CodeWriter) :
    writeExportedMethodsBuf fns = methodsHeader ++ strConcat (fns.map CodeWriter.Code) :=
  foldl_append_strConcat _ fns _

lemma WriteSQLContent_eq (mw : ModuleWriter) :
    WriteSQLContent mw
      = sqlHeader mw.PackageName
        ++ strConcat (mw.functions.map (fun f => f.SQL mw.PackageName)) :=
  foldl_append_strConcat _ mw.functions _

/-- The pieces of `s` around the first occurrence of `pat`, when `pat`
occurs in `s`. -/
def splitAtFirst : List Char → List Char → Option (List Char × List Char)
  | [], pat => if pat.isEmpty then some ([], []) else none
  | c :: rest, pat =>
    if pat.isPrefixOf (c :: rest) then some ([], (c :: rest).drop pat.length)
    else
      match splitAtFirst rest pat with
      | some (a, b) => some (c :: a, b)
      | none => none

lemma splitAtFirst_spec (pat rep : List Char) :
    ∀ s a b, splitAtFirst s pat = some (a, b) →
      s = a ++ pat ++ b ∧ replaceFirst s pat rep = a ++ rep ++ b := by
  intro s
  induction s with
  | nil =>
    intro a b h
    by_cases hpat : pat.isEmpty
    · have hnil : pat = [] := by
        cases pat with
        | nil => rfl
        | cons x xs => simp [List.isEmpty] at hpat
      simp only [splitAtFirst, hpat, if_true, Option.some.injEq, Prod.mk.injEq] at h
      obtain ⟨ha, hb⟩ := h
      subst ha; subst hb
      simp [replaceFirst, hnil]
    · simp [splitAtFirst, hpat] at h
  | cons c rest ih =>
    intro a b h
    by_cases hp : pat.isPrefixOf (c :: rest) = true
    · simp only [splitAtFirst, hp, if_true, Option.some.injEq, Prod.mk.injEq] at h
      obtain ⟨ha, hb⟩ := h
      subst ha; subst hb
      refine ⟨by simpa using isPrefixOf_append pat (c :: rest) hp, ?_⟩
      simp [replaceFirst, hp]
    · have hp2 : pat.isPrefixOf (c :: rest) = false := by
        cases hpe : pat.isPrefixOf (c :: rest) with
        | true => exact absurd hpe hp
        | false => rfl
      simp only [splitAtFirst, hp2, Bool.false_eq_true, if_false] at h
      cases hrec : splitAtFirst rest pat with
      | none => rw [hrec] at h; cases h
      | some ab =>
        obtain ⟨a2, b2⟩ := ab
        rw [hrec] at h
        simp only [Option.some.injEq, Prod.mk.injEq] at h
        obtain ⟨ha, hb⟩ := h
        subst ha; subst hb
        obtain ⟨hs, hr⟩ := ih a2 b2 hrec
        refine ⟨by simp [hs], ?_⟩
        simp only [replaceFirst, hp2, Bool.false_eq_true, if_false, hr]
        simp

lemma writeplgo_panic_iff (env : PlgoEnv) (fns : List CodeWriter) (template : String)
    (ht : env.readPlGoSource = .ok template) :
    writeplgo env fns = .panic ↔ template.length < 12 := by
  obtain ⟨r, pc, wf⟩ := env
  replace ht : r = .ok template := ht
  subst ht
  constructor
  · intro hp
    by_cases hlt : template.length < 12
    · exact hlt
    · exfalso
      cases pc with
      | error e => simp [writeplgo, if_neg hlt] at hp
      | ok d =>
        cases wf with
        | some e => simp [writeplgo, if_neg hlt] at hp
        | none => simp [writeplgo, if_neg hlt] at hp
  · intro hlt
    simp [writeplgo, if_pos hlt]

lemma writeplgo_success (env : PlgoEnv) (fns : List CodeWriter)
    (template incDir : String)
    (ht : env.readPlGoSource = .ok template) (hlen : 12 ≤ template.length)
    (hinc : env.pgConfigIncludeDir = .ok incDir) (hw : env.writeFile = none) :
    writeplgo env fns = .ok (writeplgoGlueSource template incDir fns) := by
  obtain ⟨r, pc, wf⟩ := env
  replace ht : r = .ok template := ht
  replace hinc : pc = .ok incDir := hinc
  replace hw : wf = none := hw
  subst ht; subst hinc; subst hw
  have hlt : ¬ template.length < 12 := by omega
  simp [writeplgo, if_neg hlt]

lemma writeplgoGlueSource_eq (template incDir : String) (fns : List CodeWriter) :
    writeplgoGlueSource template incDir fns
      = String.mk (replaceFirst
          (addOtherIncludesAndLDFLAGS
            (goStringsReplace1 ("package main\n\n" ++ String.mk (template.data.drop 12))
              "/usr/include/postgresql/server" (getcorrectpath incDir))
            (getcorrectpath incDir)).data
          "//{funcdec}".data (funcdecBlob fns).data) := rfl

/-! ## Claim theorems -/

/-- C4: if the input directory parses into more than one distinct package
identifier, `NewModuleWriter` fails with the multiple-packages error, and
no `ModuleWriter` is constructed (so no emission step can run). -/
theorem C4_multiple_packages (packagePath : String) (env : AnalyzerEnv)
    (pkgs : List (String × GoPackage))
    (hp : env.parsed = .ok pkgs) (hlen : 1 < pkgs.length) :
    NewModuleWriter packagePath env
      = .error ("More than one package in " ++ packagePath) ∧
    ∀ mw : ModuleWriter, NewModuleWriter packagePath env ≠ .ok mw := by
  have hmain : NewModuleWriter packagePath env
      = .error ("More than one package in " ++ packagePath) := by
    simp [NewModuleWriter, hp, hlen]
  exact ⟨hmain, fun mw hmw => by rw [hmain] at hmw; exact Except.noConfusion hmw⟩

def pkgMainOnly : GoPackage := { files := [{ name := "a.go", doc := "A" }] }

def pkgUtil : GoPackage := { files := [{ name := "u.go", doc := "U" }] }

def envTwoPackages : AnalyzerEnv :=
  { parsed := .ok [("main", pkgMainOnly), ("util", pkgUtil)]
  , visitorResult := .ok []
  , absPath := .ok "/home/user/demo" }

def mwNever : ModuleWriter := { PackageName := "x", Doc := "", functions := [] }

theorem C4_multiple_packages_witness :
    NewModuleWriter "testdata/two" envTwoPackages
      = .error ("More than one package in " ++ "testdata/two") ∧
    NewModuleWriter "testdata/two" envTwoPackages ≠ .ok mwNever :=
  have h := C4_multiple_packages "testdata/two" envTwoPackages
    [("main", pkgMainOnly), ("util", pkgUtil)] rfl (by decide)
  ⟨h.1, h.2 mwNever⟩

/-- C5: if the single parsed package is not named `main`, `NewModuleWriter`
fails with the no-package-main error, which differs from the
multiple-packages error for every package path. -/
theorem C5_not_entry_package (packagePath : String) (env : AnalyzerEnv)
    (pkgs : List (String × GoPackage))
    (hp : env.parsed = .ok pkgs) (hlen : ¬ 1 < pkgs.length)
    (hmain : pkgs.lookup "main" = none) :
    NewModuleWriter packagePath env
      = .error ("No package main in " ++ packagePath) ∧
    ("No package main in " ++ packagePath)
      ≠ ("More than one package in " ++ packagePath) := by
  constructor
  · simp [NewModuleWriter, hp, hlen, hmain]
  · intro h
    have h2 := congrArg (fun s => s.data.length) h
    simp only [string_data_append, List.length_append] at h2
    have e1 : ("No package main in " : String).data.length = 19 := rfl
    have e2 : ("More than one package in " : String).data.length = 25 := rfl
    rw [e1, e2] at h2
    omega

def envNotMain : AnalyzerEnv :=
  { parsed := .ok [("plgo", pkgUtil)]
  , visitorResult := .ok []
  , absPath := .ok "/home/user/demo" }

theorem C5_not_entry_package_witness :
    NewModuleWriter "testdata/plgo" envNotMain
      = .error ("No package main in " ++ "testdata/plgo") ∧
    ("No package main in " ++ "testdata/plgo")
      ≠ ("More than one package in " ++ "testdata/plgo") :=
  C5_not_entry_package "testdata/plgo" envNotMain [("plgo", pkgUtil)]
    rfl (by decide) (by decide)

/-- C9: every successfully constructed `ModuleWriter` takes its
`PackageName` from the base name of the absolute package path (not from
the parsed package identifier), and the parsed package identifier is
necessarily `main`. -/
theorem C9_package_name_from_path (packagePath : String) (env : AnalyzerEnv)
    (mw : ModuleWriter) (pkgs : List (String × GoPackage)) (abs : String)
    (hp : env.parsed = .ok pkgs) (ha : env.absPath = .ok abs)
    (h : NewModuleWriter packagePath env = .ok mw) :
    mw.PackageName = goFilepathBase abs ∧
    (pkgs.lookup "main").isSome = true := by
  by_cases hlen : 1 < pkgs.length
  · simp [NewModuleWriter, hp, hlen] at h
  · cases hm : pkgs.lookup "main" with
    | none => simp [NewModuleWriter, hp, hlen, hm] at h
    | some pkg =>
      cases hv : env.visitorResult with
      | error e => simp [NewModuleWriter, hp, hlen, hm, hv] at h
      | ok fns =>
        simp only [NewModuleWriter, hp, hlen, if_false, hm, hv, ha] at h
        refine ⟨?_, by simp [hm]⟩
        cases h with
        | refl => rfl

def envDemoDir : AnalyzerEnv :=
  { parsed := .ok [("main", pkgMainOnly)]
  , visitorResult := .ok []
  , absPath := .ok "/home/user/demo" }

def mwDemoDir : ModuleWriter :=
  { PackageName := goFilepathBase "/home/user/demo"
  , Doc := aggregateDoc pkgMainOnly.files
  , functions := [] }

theorem C9_package_name_from_path_witness :
    mwDemoDir.PackageName = goFilepathBase "/home/user/demo" ∧
    ([("main", pkgMainOnly)].lookup "main").isSome = true :=
  C9_package_name_from_path "demo" envDemoDir mwDemoDir
    [("main", pkgMainOnly)] "/home/user/demo" rfl rfl rfl

/-- C8: `versionInfo` fails with a dedicated message when `go.mod` is
missing, fails when no requirement of the parsed manifest matches the
identifier, returns the matched requirement's version otherwise, and
succeeds in no case other than a present, parsed manifest containing a
matching requirement. -/
theorem C8_versionInfo_cases (env : GoModEnv) (mod : String) :
    (env.readResult = .missing →
      versionInfo env mod = .error "go.mod is missing. Please run go mod init") ∧
    (∀ text reqs, env.readResult = .content text → env.parsed = .ok reqs →
      (reqs.find? (fun r => r.path == mod) = none →
        versionInfo env mod = .error ("Cannot find " ++ mod ++ " in go.mod")) ∧
      (∀ r, reqs.find? (fun r => r.path == mod) = some r →
        versionInfo env mod = .ok r.version ∧ r.path = mod ∧ r ∈ reqs)) ∧
    (∀ v, versionInfo env mod = .ok v →
      ∃ text reqs r, env.readResult = .content text ∧ env.parsed = .ok reqs ∧
        r ∈ reqs ∧ r.path = mod ∧ r.version = v) := by
  refine ⟨fun hm => by simp [versionInfo, hm], ?_, ?_⟩
  · intro text reqs hr hp
    refine ⟨fun hf => by simp [versionInfo, hr, hp, hf], ?_⟩
    intro r hf
    refine ⟨by simp [versionInfo, hr, hp, hf], ?_, List.mem_of_find?_eq_some hf⟩
    have := List.find?_some hf
    simpa using this
  · intro v hv
    cases hr : env.readResult with
    | missing => simp [versionInfo, hr] at hv
    | readErr e => simp [versionInfo, hr] at hv
    | content text =>
      cases hp : env.parsed with
      | error e => simp [versionInfo, hr, hp] at hv
      | ok reqs =>
        cases hf : reqs.find? (fun r => r.path == mod) with
        | none => simp [versionInfo, hr, hp, hf] at hv
        | some r =>
          simp only [versionInfo, hr, hp, hf, Except.ok.injEq] at hv
          refine ⟨text, reqs, r, rfl, rfl, List.mem_of_find?_eq_some hf, ?_, hv⟩
          have := List.find?_some hf
          simpa using this

def envGoMod : GoModEnv :=
  { readResult := .content "module demo"
  , parsed := .ok [{ path := "github.com/algonode/plgo", version := "v1.0.2" }] }

def reqPlgo : ModRequire :=
  { path := "github.com/algonode/plgo", version := "v1.0.2" }

def envGoModMissing : GoModEnv := { readResult := .missing, parsed := .ok [] }

theorem C8_versionInfo_cases_witness :
    versionInfo envGoMod "github.com/algonode/plgo" = .ok reqPlgo.version ∧
    versionInfo envGoMod "example.com/absent"
      = .error ("Cannot find " ++ "example.com/absent" ++ " in go.mod") ∧
    versionInfo envGoModMissing "github.com/algonode/plgo"
      = .error "go.mod is missing. Please run go mod init" :=
  have h1 := ((C8_versionInfo_cases envGoMod "github.com/algonode/plgo").2.1
    "module demo" [reqPlgo] rfl rfl).2 reqPlgo (by decide)
  have h2 := ((C8_versionInfo_cases envGoMod "example.com/absent").2.1
    "module demo" [reqPlgo] rfl rfl).1 (by decide)
  have h3 := (C8_versionInfo_cases envGoModMissing "github.com/algonode/plgo").1 rfl
  ⟨h1.1, h2, h3⟩

/-- C10: `writeplgo` faults (the `plgoSource[12:]` slice) exactly when the
template it read is shorter than 12 bytes; when the template has at least
12 bytes the step succeeds by prepending `package main` to the template
minus its first 12 bytes and performing the two substitutions. -/
theorem C10_template_slice (env : PlgoEnv) (fns : List CodeWriter)
    (template incDir : String) (ht : env.readPlGoSource = .ok template) :
    (writeplgo env fns = .panic ↔ template.length < 12) ∧
    (12 ≤ template.length → env.pgConfigIncludeDir = .ok incDir →
      env.writeFile = none →
      writeplgo env fns
        = .ok (goStringsReplace1
            (addOtherIncludesAndLDFLAGS
              (goStringsReplace1
                ("package main\n\n" ++ String.mk (template.data.drop 12))
                "/usr/include/postgresql/server" (getcorrectpath incDir))
              (getcorrectpath incDir))
            "//{funcdec}" (funcdecBlob fns))) := by
  constructor
  · exact writeplgo_panic_iff env fns template ht
  · intro hge hinc hw
    rw [writeplgo_success env fns template incDir ht hge hinc hw]
    rfl

def envShortTemplate : PlgoEnv :=
  { readPlGoSource := .ok "short", pgConfigIncludeDir := .ok "/inc", writeFile := none }

def envLongTemplate : PlgoEnv :=
  { readPlGoSource := .ok "package plgo\nvar y int\n"
  , pgConfigIncludeDir := .ok "/inc", writeFile := none }

theorem C10_template_slice_witness :
    (writeplgo envShortTemplate [] = .panic
      ↔ ("short" : String).data.length < 12) ∧
    writeplgo envLongTemplate []
      = .ok (goStringsReplace1
          (addOtherIncludesAndLDFLAGS
            (goStringsReplace1
              ("package main\n\n"
                ++ String.mk (("package plgo\nvar y int\n" : String).data.drop 12))
              "/usr/include/postgresql/server" (getcorrectpath "/inc"))
            (getcorrectpath "/inc"))
          "//{funcdec}" (funcdecBlob [])) :=
  ⟨(C10_template_slice envShortTemplate [] "short" "/inc" rfl).1,
   (C10_template_slice envLongTemplate [] "package plgo\nvar y int\n" "/inc" rfl).2
     (by decide) rfl rfl⟩

def envNoMarker : PlgoEnv :=
  { readPlGoSource := .ok "package plgo\nvar x = 1\n"
  , pgConfigIncludeDir := .ok "/usr/include/postgresql/server"
  , writeFile := none }

/-- C1 (counterexample): on a template that does not contain the
`//{funcdec}` marker, `writeplgo` does not fail at all — the
marker substitution is a silent no-op and the glue file is emitted
successfully, so no error distinct from the missing-template error
exists. -/
theorem C1_counterexample :
    containsStr "package plgo\nvar x = 1\n" "//{funcdec}" = false ∧
    writeplgo envNoMarker [] = .ok "package main\n\n\nvar x = 1\n" := by
  exact ⟨by decide, by decide⟩

/-- C1 (amended): when the glue template lacks the `//{funcdec}` marker,
`writeplgo` succeeds anyway: `strings.Replace` leaves the text unchanged,
no declarations are spliced in, and no error is produced.  The only
failures `writeplgo` itself reports are a failed template read, a failed
`pg_config` run, and a failed file write. -/
theorem C1_amended_no_marker_no_error (env : PlgoEnv) (fns : List CodeWriter)
    (template incDir : String)
    (ht : env.readPlGoSource = .ok template)
    (hlen : 12 ≤ template.length)
    (hinc : env.pgConfigIncludeDir = .ok incDir)
    (hw : env.writeFile = none)
    (hmarker : containsStr
      (addOtherIncludesAndLDFLAGS
        (goStringsReplace1 ("package main\n\n" ++ String.mk (template.data.drop 12))
          "/usr/include/postgresql/server" (getcorrectpath incDir))
        (getcorrectpath incDir)) "//{funcdec}" = false) :
    writeplgo env fns
      = .ok (addOtherIncludesAndLDFLAGS
          (goStringsReplace1 ("package main\n\n" ++ String.mk (template.data.drop 12))
            "/usr/include/postgresql/server" (getcorrectpath incDir))
          (getcorrectpath incDir)) := by
  have hm2 : containsSeq
      (addOtherIncludesAndLDFLAGS
        (goStringsReplace1 ("package main\n\n" ++ String.mk (template.data.drop 12))
          "/usr/include/postgresql/server" (getcorrectpath incDir))
        (getcorrectpath incDir)).data "//{funcdec}".data = false := hmarker
  rw [writeplgo_success env fns template incDir ht hlen hinc hw,
    writeplgoGlueSource_eq, replaceFirst_of_not_contains _ _ _ hm2]

def envNoMarkerTwo : PlgoEnv :=
  { readPlGoSource := .ok "package plgo\nvar y = 2\n"
  , pgConfigIncludeDir := .ok "/pginc"
  , writeFile := none }

theorem C1_amended_no_marker_no_error_witness :
    writeplgo envNoMarkerTwo []
      = .ok (addOtherIncludesAndLDFLAGS
          (goStringsReplace1
            ("package main\n\n"
              ++ String.mk (("package plgo\nvar y = 2\n" : String).data.drop 12))
            "/usr/include/postgresql/server" (getcorrectpath "/pginc"))
          (getcorrectpath "/pginc")) :=
  C1_amended_no_marker_no_error envNoMarkerTwo [] "package plgo\nvar y = 2\n" "/pginc"
    rfl (by decide) rfl rfl (by decide)

/-- C2: for a `ModuleWriter` holding N function descriptors, the emitted
glue source carries the in-order concatenation of the N `FuncDec`
fragments spliced at the marker, the wrapper buffer is the boilerplate
header followed by the in-order concatenation of the N `Code` fragments,
and the registration script is its header followed by the in-order
concatenation of the N `SQL` statements. -/
theorem C2_fragment_sequences (env : PlgoEnv) (mw : ModuleWriter)
    (template incDir : String) (a b : List Char)
    (ht : env.readPlGoSource = .ok template)
    (hlen : 12 ≤ template.length)
    (hinc : env.pgConfigIncludeDir = .ok incDir)
    (hw : env.writeFile = none)
    (hsplit : splitAtFirst
      (addOtherIncludesAndLDFLAGS
        (goStringsReplace1 ("package main\n\n" ++ String.mk (template.data.drop 12))
          "/usr/include/postgresql/server" (getcorrectpath incDir))
        (getcorrectpath incDir)).data "//{funcdec}".data = some (a, b)) :
    writeplgo env mw.functions
      = .ok (String.mk
          (a ++ (strConcat (mw.functions.map CodeWriter.FuncDec)).data ++ b)) ∧
    writeExportedMethodsBuf mw.functions
      = methodsHeader ++ strConcat (mw.functions.map CodeWriter.Code) ∧
    WriteSQLContent mw
      = sqlHeader mw.PackageName
        ++ strConcat (mw.functions.map (fun f => f.SQL mw.PackageName)) := by
  refine ⟨?_, writeExportedMethodsBuf_eq _, WriteSQLContent_eq _⟩
  obtain ⟨hs, hr⟩ :=
    splitAtFirst_spec "//{funcdec}".data (funcdecBlob mw.functions).data _ a b hsplit
  rw [writeplgo_success env mw.functions template incDir ht hlen hinc hw,
    writeplgoGlueSource_eq, hr, funcdecBlob_eq_strConcat]

def envWithMarker : PlgoEnv :=
  { readPlGoSource := .ok "package plgo\n//{funcdec}\n"
  , pgConfigIncludeDir := .ok "/inc"
  , writeFile := none }

/-- Modelled from the spec: the demo descriptor `add(int,int)->int`,
with its declaration, wrapper and registration fragments. -/
def addWriter : CodeWriter :=
  { FuncDec := "func add(a int, b int) int\n"
  , Code := "//export plgo_add\nfunc plgo_add(fcinfo *FuncInfo) Datum\n"
  , SQL := fun m =>
      "CREATE OR REPLACE FUNCTION add(a integer, b integer) RETURNS integer AS \x27"
        ++ m ++ "\x27, \x27plgo_add\x27 LANGUAGE c STRICT;\n" }

/-- Modelled from the spec: the demo descriptor `greet(text)->text`,
with its declaration, wrapper and registration fragments. -/
def greetWriter : CodeWriter :=
  { FuncDec := "func greet(name string) string\n"
  , Code := "//export plgo_greet\nfunc plgo_greet(fcinfo *FuncInfo) Datum\n"
  , SQL := fun m =>
      "CREATE OR REPLACE FUNCTION greet(name text) RETURNS text AS \x27"
        ++ m ++ "\x27, \x27plgo_greet\x27 LANGUAGE c STRICT;\n" }

def mwDemo : ModuleWriter :=
  { PackageName := "demo", Doc := "", functions := [addWriter, greetWriter] }

theorem C2_fragment_sequences_witness :
    writeplgo envWithMarker mwDemo.functions
      = .ok (String.mk
          ("package main\n\n\n".data
            ++ (strConcat (mwDemo.functions.map CodeWriter.FuncDec)).data
            ++ "\n".data)) ∧
    writeExportedMethodsBuf mwDemo.functions
      = methodsHeader ++ strConcat (mwDemo.functions.map CodeWriter.Code) ∧
    WriteSQLContent mwDemo
      = sqlHeader mwDemo.PackageName
        ++ strConcat (mwDemo.functions.map (fun f => f.SQL mwDemo.PackageName)) :=
  C2_fragment_sequences envWithMarker mwDemo "package plgo\n//{funcdec}\n" "/inc"
    "package main\n\n\n".data "\n".data rfl (by decide) rfl rfl (by decide)

/-- C6: with module name `demo` and the descriptors `add` and `greet` in
that order, the control file contains `demo extension`, the Makefile
contains `EXTENSION = demo`, and the registration script is the header
followed by the registration statements of `add` and then `greet`. -/
theorem C6_demo_artifacts :
    containsStr (WriteControlContent mwDemo) "demo extension" = true ∧
    containsStr (WriteMakefileContent mwDemo) "EXTENSION = demo" = true ∧
    WriteSQLContent mwDemo
      = sqlHeader "demo" ++ (addWriter.SQL "demo" ++ (greetWriter.SQL "demo" ++ "")) ∧
    containsStr (WriteSQLContent mwDemo) "FUNCTION add" = true ∧
    containsStr (WriteSQLContent mwDemo) "FUNCTION greet" = true := by
  refine ⟨by decide, by decide, ?_, by decide, by decide⟩
  rw [WriteSQLContent_eq]
  rfl

/-- C7: `WriteModule` runs its three write steps in the fixed order
(user package, glue source, wrapper source); the first failing step's
error is returned and no later step is executed, and a formatting
failure of the wrapper source is returned as the run's error. -/
theorem C7_write_module_fail_fast (env : WriteModuleEnv) (fns : List CodeWriter) :
    (∀ e, env.buildPath = .error e →
      WriteModule env fns = (.err ("Cannot get tempdir: " ++ e), [])) ∧
    (∀ dir e, env.buildPath = .ok dir → env.userPackage = .error e →
      WriteModule env fns = (.err e, ["writeUserPackage"])) ∧
    (∀ dir pkgSrc e, env.buildPath = .ok dir → env.userPackage = .ok pkgSrc →
      writeplgo env.plgoEnv fns = .err e →
      WriteModule env fns = (.err e, ["writeUserPackage", "writeplgo"])) ∧
    (∀ dir pkgSrc glue e, env.buildPath = .ok dir → env.userPackage = .ok pkgSrc →
      writeplgo env.plgoEnv fns = .ok glue →
      env.fmtSource (writeExportedMethodsBuf fns) = .error e →
      WriteModule env fns
        = (.err e, ["writeUserPackage", "writeplgo", "writeExportedMethods"])) ∧
    (∀ dir pkgSrc glue code, env.buildPath = .ok dir → env.userPackage = .ok pkgSrc →
      writeplgo env.plgoEnv fns = .ok glue →
      env.fmtSource (writeExportedMethodsBuf fns) = .ok code →
      env.methodsWrite = none →
      WriteModule env fns
        = (.ok [{ name := "package.go", content := pkgSrc },
                { name := "pl.go", content := glue },
                { name := "methods.go", content := code }],
           ["writeUserPackage", "writeplgo", "writeExportedMethods"])) := by
  refine ⟨?_, ?_, ?_, ?_, ?_⟩
  · intro e h1
    simp [WriteModule, h1]
  · intro dir e h1 h2
    simp [WriteModule, h1, h2]
  · intro dir pkgSrc e h1 h2 h3
    simp [WriteModule, h1, h2, h3]
  · intro dir pkgSrc glue e h1 h2 h3 h4
    simp [WriteModule, writeExportedMethods, h1, h2, h3, h4]
  · intro dir pkgSrc glue code h1 h2 h3 h4 h5
    simp [WriteModule, writeExportedMethods, h1, h2, h3, h4, h5]

def plgoEnvOk : PlgoEnv :=
  { readPlGoSource := .ok "package plgo\n"
  , pgConfigIncludeDir := .ok "/inc", writeFile := none }

def envStopAtUser : WriteModuleEnv :=
  { buildPath := .ok "/tmp/build"
  , userPackage := .error "Cannot format package boom"
  , plgoEnv := plgoEnvOk, fmtSource := fun s => .ok s, methodsWrite := none }

def envStopAtPlgo : WriteModuleEnv :=
  { buildPath := .ok "/tmp/build"
  , userPackage := .ok "package main\n"
  , plgoEnv := { readPlGoSource := .error "Package github.com/algonode/plgo not installed"
               , pgConfigIncludeDir := .ok "/inc", writeFile := none }
  , fmtSource := fun s => .ok s, methodsWrite := none }

def envStopAtFmt : WriteModuleEnv :=
  { buildPath := .ok "/tmp/build"
  , userPackage := .ok "package main\n"
  , plgoEnv := plgoEnvOk
  , fmtSource := fun _ => .error "fmt: syntax error", methodsWrite := none }

def envAllStepsOk : WriteModuleEnv :=
  { buildPath := .ok "/tmp/build"
  , userPackage := .ok "package main\n"
  , plgoEnv := plgoEnvOk, fmtSource := fun s => .ok s, methodsWrite := none }

theorem C7_write_module_fail_fast_witness :
    WriteModule envStopAtUser []
      = (.err "Cannot format package boom", ["writeUserPackage"]) ∧
    WriteModule envStopAtPlgo []
      = (.err "Package github.com/algonode/plgo not installed",
         ["writeUserPackage", "writeplgo"]) ∧
    WriteModule envStopAtFmt []
      = (.err "fmt: syntax error",
         ["writeUserPackage", "writeplgo", "writeExportedMethods"]) ∧
    WriteModule envAllStepsOk []
      = (.ok [{ name := "package.go", content := "package main\n" },
              { name := "pl.go", content := "package main\n\n\n" },
              { name := "methods.go", content := writeExportedMethodsBuf [] }],
         ["writeUserPackage", "writeplgo", "writeExportedMethods"]) :=
  ⟨(C7_write_module_fail_fast envStopAtUser []).2.1 "/tmp/build"
     "Cannot format package boom" rfl rfl,
   (C7_write_module_fail_fast envStopAtPlgo []).2.2.1 "/tmp/build" "package main\n"
     "Package github.com/algonode/plgo not installed" rfl rfl rfl,
   (C7_write_module_fail_fast envStopAtFmt []).2.2.2.1 "/tmp/build" "package main\n"
     "package main\n\n\n" "fmt: syntax error" rfl rfl (by decide) rfl,
   (C7_write_module_fail_fast envAllStepsOk []).2.2.2.2 "/tmp/build" "package main\n"
     "package main\n\n\n" (writeExportedMethodsBuf []) rfl rfl (by decide) rfl rfl⟩

def fileAlpha : GoFile := { name := "a.go", doc := "Alpha docs" }

def fileBeta : GoFile := { name := "b.go", doc := "Beta docs" }

/-- C3 (counterexample): the doc-aggregation loop of `NewModuleWriter`
ranges over the parsed package's file map, whose iteration order Go
leaves unspecified; the same two distinctly-named files visited in the
two possible orders yield different doc blobs, so the aggregation is not
a deterministic function of the parsed input. -/
theorem C3_counterexample :
    List.Perm [fileAlpha, fileBeta] [fileBeta, fileAlpha] ∧
    fileAlpha.name ≠ fileBeta.name ∧
    aggregateDoc [fileAlpha, fileBeta] ≠ aggregateDoc [fileBeta, fileAlpha] :=
  ⟨List.Perm.swap fileBeta fileAlpha [], by decide, by decide⟩

/-- C3 (amended): every emission step is a deterministic function of the
module name, the descriptor list and the external inputs, and none of
them reads the aggregated doc blob — two run contexts equal up to `Doc`
emit byte-identical glue source, wrapper source, registration script,
control file and Makefile.  The doc aggregation itself, however, depends
on the unspecified file-map iteration order (see the counterexample). -/
theorem C3_amended_deterministic_emissions (mw1 mw2 : ModuleWriter)
    (env : PlgoEnv) (fmt : String → Except String String) (wr : Option String)
    (hname : mw1.PackageName = mw2.PackageName)
    (hfns : mw1.functions = mw2.functions) :
    writeplgo env mw1.functions = writeplgo env mw2.functions ∧
    writeExportedMethods fmt wr mw1.functions
      = writeExportedMethods fmt wr mw2.functions ∧
    WriteSQLContent mw1 = WriteSQLContent mw2 ∧
    WriteControlContent mw1 = WriteControlContent mw2 ∧
    WriteMakefileContent mw1 = WriteMakefileContent mw2 := by
  refine ⟨by rw [hfns], by rw [hfns], ?_, ?_, ?_⟩ <;>
    simp [WriteSQLContent, WriteControlContent, WriteMakefileContent, hname, hfns]

def mwDemoOtherDoc : ModuleWriter :=
  { PackageName := "demo", Doc := "Beta docs\nAlpha docs\n"
  , functions := [addWriter, greetWriter] }

theorem C3_amended_deterministic_emissions_witness :
    writeplgo envWithMarker mwDemo.functions
      = writeplgo envWithMarker mwDemoOtherDoc.functions ∧
    writeExportedMethods (fun s => .ok s) none mwDemo.functions
      = writeExportedMethods (fun s => .ok s) none mwDemoOtherDoc.functions ∧
    WriteSQLContent mwDemo = WriteSQLContent mwDemoOtherDoc ∧
    WriteControlContent mwDemo = WriteControlContent mwDemoOtherDoc ∧
    WriteMakefileContent mwDemo = WriteMakefileContent mwDemoOtherDoc :=
  C3_amended_deterministic_emissions mwDemo mwDemoOtherDoc envWithMarker
    (fun s => .ok s) none rfl rfl

end Plgo
